import Mathlib

/-!
Verification of the brightness-control core of danklinux.

Shallow embedding of the Go sources under `internal/server/brightness/`
(`sysfs.go`, `ddc.go`, `manager.go`, `types.go`) plus the revision of the
manager kept alongside the tests (logind fallback path).

Modelling conventions:
* Go `int` values are modelled as `Nat`; every call site of the modelled
  functions validates the relevant arguments to be non-negative (percent is
  checked to lie in [0,100], raw values are parsed from sysfs attributes and
  guarded by the `value <= minValue` branch), so the natural-number model
  agrees with the Go semantics on all reachable inputs.
* The perceptual ("logarithmic") branch of the mappings calls
  `math.Pow(x, 0.5)` / `math.Pow(x, 2.0)` and `math.Round` on `float64`.
  These are modelled by exact integer arithmetic:
  `Round(sqrt(p/100) * R) = (Nat.sqrt (p * (R * R)) + 5) / 10` and
  `Round((L/100)^2 * 100) = (L * L + 50) / 100`
  (round half away from zero; all quantities are non-negative, and the
  second expression never hits a tie because `L * L % 100 = 50` has no
  solution).  This is the standard exact-real reading of the floating-point
  code.
-/

namespace Danklinux

/-- Fueled binary search for the integer square root.  Invariant:
`lo * lo ≤ n < hi * hi`; the fuel only bounds the recursion (structural
recursion keeps the function kernel-reducible, unlike `Nat.sqrt`, which is
defined by well-founded recursion). -/
def natSqrtGo (n : Nat) : Nat → Nat → Nat → Nat
  | 0, lo, _ => lo
  | fuel + 1, lo, hi =>
    if hi ≤ lo + 1 then lo
    else
      let mid := (lo + hi) / 2
      if mid * mid ≤ n then natSqrtGo n fuel mid hi else natSqrtGo n fuel lo mid

/-- Integer square root (`⌊√n⌋`), computable by kernel reduction. -/
def natSqrt (n : Nat) : Nat :=
  if n = 0 then 0 else natSqrtGo n (n + 2) 1 (n + 1)

theorem natSqrtGo_spec (n : Nat) :
    ∀ fuel lo hi, hi ≤ lo + 1 + fuel → lo * lo ≤ n → n < hi * hi →
      natSqrtGo n fuel lo hi * natSqrtGo n fuel lo hi ≤ n ∧
        n < (natSqrtGo n fuel lo hi + 1) * (natSqrtGo n fuel lo hi + 1) := by
  intro fuel
  induction fuel with
  | zero =>
    intro lo hi hfuel hlo hhi
    simp only [natSqrtGo]
    refine ⟨hlo, lt_of_lt_of_le hhi ?_⟩
    exact Nat.mul_le_mul (by omega) (by omega)
  | succ fuel ih =>
    intro lo hi hfuel hlo hhi
    simp only [natSqrtGo]
    by_cases hsmall : hi ≤ lo + 1
    · rw [if_pos hsmall]
      refine ⟨hlo, lt_of_lt_of_le hhi ?_⟩
      exact Nat.mul_le_mul (by omega) (by omega)
    · rw [if_neg hsmall]
      have hmid1 : lo < (lo + hi) / 2 := by omega
      have hmid2 : (lo + hi) / 2 < hi := by omega
      by_cases hc : (lo + hi) / 2 * ((lo + hi) / 2) ≤ n
      · rw [if_pos hc]
        exact ih ((lo + hi) / 2) hi (by omega) hc hhi
      · rw [if_neg hc]
        exact ih lo ((lo + hi) / 2) (by omega) hlo (by omega)

/-- `natSqrt` really is the integer square root: this characterisation
determines it uniquely. -/
theorem natSqrt_spec (n : Nat) :
    natSqrt n * natSqrt n ≤ n ∧ n < (natSqrt n + 1) * (natSqrt n + 1) := by
  unfold natSqrt
  by_cases h : n = 0
  · subst h; simp
  · rw [if_neg h]
    exact natSqrtGo_spec n (n + 2) 1 (n + 1) (by omega) (by omega)
      (by nlinarith [Nat.one_le_iff_ne_zero.mpr h])

/-- Exact model of `math.Round(math.Pow(p/100.0, 1.0/2.0) * R)` for
natural `p`, `R` (sysfs.go:186-189, ddc.go:421-424):
`sqrt(p/100) * R = sqrt(p * R^2) / 10`, and rounding half away from zero of
a non-negative real `x` is `⌊x + 1/2⌋ = ⌊(10x + 5)/10⌋`, which for
`x = sqrt(N)/10` equals `(natSqrt N + 5) / 10`. -/
def powHalfRound (p R : Nat) : Nat :=
  (natSqrt (p * (R * R)) + 5) / 10

/-- Exact model of `math.Round(math.Pow(L/100.0, 2.0) * 100.0)` for a
natural `L` (sysfs.go:221-224, ddc.go:458-462): `(L/100)^2 * 100 = L^2/100`,
rounded half away from zero; `L^2 % 100 = 50` is impossible, so no tie. -/
def sqOverHundredRound (L : Nat) : Nat :=
  (L * L + 50) / 100

/-- `SysfsBackend.PercentToValue` (sysfs.go:177-202).  `minValue` and
`maxBrightness` are the fields of the cached `sysfsDevice`. -/
def percentToValue (percent minValue maxBrightness : Nat) (logarithmic : Bool) : Nat :=
  if percent = 0 then minValue
  else
    let usableRange := maxBrightness - minValue
    let value :=
      if logarithmic then minValue + powHalfRound percent usableRange
      else minValue + (percent - 1) * usableRange / 99
    let value := if value < minValue then minValue else value
    if value > maxBrightness then maxBrightness else value

/-- `SysfsBackend.ValueToPercent` (sysfs.go:204-237). -/
def valueToPercent (value minValue maxBrightness : Nat) (logarithmic : Bool) : Nat :=
  if value ≤ minValue then
    if minValue = 0 ∧ value = 0 then 0 else 1
  else
    let usableRange := maxBrightness - minValue
    if usableRange = 0 then 100
    else
      let linearPercent := 1 + (value - minValue) * 99 / usableRange
      let percent :=
        if logarithmic then sqOverHundredRound linearPercent
        else linearPercent
      let percent := if percent > 100 then 100 else percent
      if percent < 1 then 1 else percent

/-- `DDCBackend.percentToValue` (ddc.go:410-437); the minimum raw value is
the constant 1. -/
def ddcPercentToValue (percent max : Nat) (logarithmic : Bool) : Nat :=
  let minValue := 1
  if percent = 0 then minValue
  else
    let usableRange := max - minValue
    let value :=
      if logarithmic then minValue + powHalfRound percent usableRange
      else minValue + (percent - 1) * usableRange / 99
    let value := if value < minValue then minValue else value
    if value > max then max else value

/-- `DDCBackend.valueToPercent` (ddc.go:439-475). -/
def ddcValueToPercent (value max : Nat) (logarithmic : Bool) : Nat :=
  let minValue := 1
  if max = 0 then 0
  else if value ≤ minValue then 1
  else
    let usableRange := max - minValue
    if usableRange = 0 then 100
    else
      let linearPercent := 1 + (value - minValue) * 99 / usableRange
      let percent :=
        if logarithmic then sqOverHundredRound linearPercent
        else linearPercent
      let percent := if percent > 100 then 100 else percent
      if percent < 1 then 1 else percent

example : percentToValue 50 1 100 false = 50 := by decide
example : percentToValue 50 0 255 false = 126 := by decide
example : valueToPercent 0 0 255 false = 0 := by decide
example : valueToPercent 1 1 100 false = 1 := by decide
example : percentToValue 50 1 2 false = 1 := by decide
example : valueToPercent 1 1 2 false = 1 := by decide
example : powHalfRound 58 103 = 78 := by decide
example : percentToValue 58 0 103 true = 78 := by decide
example : valueToPercent 78 0 103 true = 56 := by decide
example : ddcPercentToValue 50 100 false = 50 := by decide
example : ddcValueToPercent 49 100 false = 49 := by decide

/-! ### Claim C1: percent → raw → percent round trip -/

theorem percentToValue_linear_pos (p mn mx : Nat) (hp1 : 1 ≤ p) (hp : p ≤ 100)
    (hmm : mn ≤ mx) :
    percentToValue p mn mx false = mn + (p - 1) * (mx - mn) / 99 := by
  have hk : (p - 1) * (mx - mn) / 99 ≤ mx - mn := by
    calc (p - 1) * (mx - mn) / 99 ≤ 99 * (mx - mn) / 99 :=
          Nat.div_le_div_right (Nat.mul_le_mul_right _ (by omega))
      _ = mx - mn := Nat.mul_div_cancel_left _ (by norm_num)
  simp only [percentToValue, Bool.false_eq_true, if_false]
  set k := (p - 1) * (mx - mn) / 99 with hkdef
  split_ifs <;> omega

theorem valueToPercent_linear_pos (v mn mx : Nat) (hv : mn < v) (hR : mn < mx)
    (hL : 1 + (v - mn) * 99 / (mx - mn) ≤ 100) :
    valueToPercent v mn mx false = 1 + (v - mn) * 99 / (mx - mn) := by
  simp only [valueToPercent, Bool.false_eq_true, if_false]
  generalize hq : (v - mn) * 99 / (mx - mn) = q at hL ⊢
  split_ifs <;> omega

theorem valueToPercent_at_min (mn mx : Nat) :
    valueToPercent mn mn mx false ≤ 1 := by
  simp only [valueToPercent]
  split_ifs <;> omega

/-- Core ±1 bound for the linear round trip, with a usable range of at
least 99 raw units. -/
theorem linear_roundtrip_core (p mn mx : Nat) (hp : p ≤ 100) (h : mn + 99 ≤ mx) :
    valueToPercent (percentToValue p mn mx false) mn mx false ≤ p + 1 ∧
      p ≤ valueToPercent (percentToValue p mn mx false) mn mx false + 1 := by
  rcases Nat.eq_zero_or_pos p with hp0 | hp1
  · subst hp0
    have h1 : percentToValue 0 mn mx false = mn := by simp [percentToValue]
    rw [h1]
    have h2 := valueToPercent_at_min mn mx
    omega
  · rw [percentToValue_linear_pos p mn mx hp1 hp (by omega)]
    have hR0 : 0 < mx - mn := by omega
    have hR99 : 99 ≤ mx - mn := by omega
    set R := mx - mn with hRdef
    set k := (p - 1) * R / 99 with hkdef
    rcases Nat.eq_zero_or_pos k with hk0 | hk1
    · -- k = 0 forces p = 1 since R ≥ 99
      have hp1' : p = 1 := by
        by_contra hne
        have hp2 : 2 ≤ p := by omega
        have hge : 99 ≤ (p - 1) * R := le_trans hR99 (Nat.le_mul_of_pos_left _ (by omega))
        have : 1 ≤ k := by rw [hkdef]; exact (Nat.one_le_div_iff (by norm_num)).mpr hge
        omega
      rw [hk0, Nat.add_zero]
      have h2 := valueToPercent_at_min mn mx
      omega
    · -- main case: raw value mn + k with 1 ≤ k ≤ R
      have hkR : k ≤ R := by
        rw [hkdef]
        calc (p - 1) * R / 99 ≤ 99 * R / 99 :=
              Nat.div_le_div_right (Nat.mul_le_mul_right _ (by omega))
          _ = R := Nat.mul_div_cancel_left _ (by norm_num)
      -- upper bound: k * 99 / R ≤ p - 1
      have u1 : k * 99 ≤ (p - 1) * R := by
        have := Nat.div_mul_le_self ((p - 1) * R) 99
        rw [← hkdef] at this
        exact this
      have hub : k * 99 / R ≤ p - 1 := by
        calc k * 99 / R ≤ (p - 1) * R / R := Nat.div_le_div_right u1
          _ = p - 1 := Nat.mul_div_cancel _ hR0
      -- lower bound: p ≤ k * 99 / R + 2
      have hlb : p ≤ k * 99 / R + 2 := by
        rcases Nat.lt_or_ge p 2 with hp2 | hp2
        · exact le_trans (by omega : p ≤ 2) (Nat.le_add_left 2 (k * 99 / R))
        · have e1 : (p - 2) * R < k * 99 := by
            have hdm := Nat.div_add_mod ((p - 1) * R) 99
            rw [← hkdef] at hdm
            have hm : (p - 1) * R % 99 < 99 := Nat.mod_lt _ (by norm_num)
            have hsplit : (p - 1) * R = (p - 2) * R + R := by
              have hstep : p - 1 = (p - 2) + 1 := by omega
              rw [hstep, Nat.succ_mul]
            rw [hsplit] at hdm hm
            generalize (p - 2) * R = B at hdm hm ⊢
            omega
          have e2 : k * 99 < R * (k * 99 / R) + R := by
            have hdm2 := Nat.div_add_mod (k * 99) R
            have hm2 : k * 99 % R < R := Nat.mod_lt _ hR0
            calc k * 99 = R * (k * 99 / R) + k * 99 % R := hdm2.symm
              _ < R * (k * 99 / R) + R := Nat.add_lt_add_left hm2 _
          have e3 : R * (p - 2) < R * (k * 99 / R + 1) := by
            calc R * (p - 2) = (p - 2) * R := Nat.mul_comm _ _
              _ < k * 99 := e1
              _ < R * (k * 99 / R) + R := e2
              _ = R * (k * 99 / R + 1) := by ring
          have e4 : p - 2 < k * 99 / R + 1 := Nat.lt_of_mul_lt_mul_left e3
          generalize k * 99 / R = q at e4 ⊢
          omega
      -- evaluate the reverse mapping at mn + k
      have hvp : valueToPercent (mn + k) mn mx false = 1 + k * 99 / R := by
        have hL : 1 + (mn + k - mn) * 99 / (mx - mn) ≤ 100 := by
          rw [Nat.add_sub_cancel_left, ← hRdef]
          generalize k * 99 / R = q at hub ⊢
          omega
        rw [valueToPercent_linear_pos (mn + k) mn mx (by omega) (by omega) hL,
          Nat.add_sub_cancel_left, ← hRdef]
      rw [hvp]
      generalize k * 99 / R = q at hub hlb ⊢
      omega

theorem ddcPercentToValue_eq_percentToValue (p mx : Nat) (log : Bool) :
    ddcPercentToValue p mx log = percentToValue p 1 mx log := rfl

theorem ddcValueToPercent_eq_valueToPercent (v mx : Nat) (log : Bool) (h : 1 ≤ mx) :
    ddcValueToPercent v mx log = valueToPercent v 1 mx log := by
  simp only [ddcValueToPercent, valueToPercent]
  rw [if_neg (by omega : ¬ mx = 0)]
  by_cases hv : v ≤ 1
  · rw [if_pos hv, if_pos hv, if_neg (by omega : ¬ ((1 : Nat) = 0 ∧ v = 0))]
  · rw [if_neg hv, if_neg hv]

/-- C1, counterexample.  The claim "`rawToPercent(percentToRaw(percent))`
is within ±1 of `percent` for every `min < max`, in both linear and
perceptual modes" is false on the code: (a) as stated, already in linear
mode the device `min=1, max=2` sends percent 50 to raw 1 and back to
percent 1 (deviation 49); (b) even restricted to a usable range of at
least 99 raw units, the perceptual mode sends (`min=0, max=103`)
percent 58 to raw 78 and back to percent 56 (deviation 2). -/
theorem c1_roundtrip_counterexample :
    (¬ ∀ (p mn mx : Nat) (log : Bool), p ≤ 100 → mn < mx →
        valueToPercent (percentToValue p mn mx log) mn mx log ≤ p + 1 ∧
          p ≤ valueToPercent (percentToValue p mn mx log) mn mx log + 1) ∧
    (¬ ∀ (p mn mx : Nat), p ≤ 100 → mn + 99 ≤ mx →
        valueToPercent (percentToValue p mn mx true) mn mx true ≤ p + 1 ∧
          p ≤ valueToPercent (percentToValue p mn mx true) mn mx true + 1) := by
  constructor
  · intro hcl
    exact absurd ((hcl 50 1 2 false (by decide) (by decide)).2) (by decide)
  · intro hcl
    exact absurd ((hcl 58 0 103 (by decide) (by decide)).2) (by decide)

/-- C1 (amended): for every percent in [0,100] and every device whose
usable range `max - min` is at least 99 raw units, the linear-mode round
trip `rawToPercent(percentToRaw(percent))` is within ±1 of the original
percent, for both the Filesystem backend's (`PercentToValue` /
`ValueToPercent`) and the Bus backend's (`percentToValue` /
`valueToPercent`, fixed minimum 1) mapping functions.  Perceptual mode
and devices with a smaller usable range are excluded, as forced by the
counterexample. -/
theorem c1_roundtrip_within_one_linear (p mn mx : Nat) (hp : p ≤ 100)
    (hrange : mn + 99 ≤ mx) :
    (valueToPercent (percentToValue p mn mx false) mn mx false ≤ p + 1 ∧
      p ≤ valueToPercent (percentToValue p mn mx false) mn mx false + 1) ∧
    (1 + 99 ≤ mx →
      ddcValueToPercent (ddcPercentToValue p mx false) mx false ≤ p + 1 ∧
        p ≤ ddcValueToPercent (ddcPercentToValue p mx false) mx false + 1) := by
  refine ⟨linear_roundtrip_core p mn mx hp hrange, fun hmx => ?_⟩
  rw [ddcPercentToValue_eq_percentToValue, ddcValueToPercent_eq_valueToPercent _ _ _ (by omega)]
  exact linear_roundtrip_core p 1 mx hp hmx

theorem c1_roundtrip_within_one_linear_witness :
    (50 : Nat) ≤ 100 ∧ (1 : Nat) + 99 ≤ 150 ∧
      ((valueToPercent (percentToValue 50 1 150 false) 1 150 false ≤ 51 ∧
        50 ≤ valueToPercent (percentToValue 50 1 150 false) 1 150 false + 1) ∧
      (1 + 99 ≤ 150 →
        ddcValueToPercent (ddcPercentToValue 50 150 false) 150 false ≤ 51 ∧
          50 ≤ ddcValueToPercent (ddcPercentToValue 50 150 false) 150 false + 1)) :=
  ⟨by decide, by decide, c1_roundtrip_within_one_linear 50 1 150 (by decide) (by decide)⟩

/-! ### Bus (DDC/CI) protocol: checksum, command frames, response parsing -/

/-- Protocol constants (ddc.go:18-25). -/
def DDCCI_VCP_GET : Nat := 0x01

def DDCCI_VCP_SET : Nat := 0x03

def VCP_BRIGHTNESS : Nat := 0x10

def DDC_SOURCE_ADDR : Nat := 0x51

/-- `ddcciChecksum` (ddc.go:373-379): XOR of the fixed destination-address
seed 0x6E with every payload byte. -/
def ddcciChecksum (payload : List Nat) : Nat :=
  payload.foldl (fun sum b => sum ^^^ b) 0x6E

/-- The command frame written by `DDCBackend.getVCPFeature`
(ddc.go:300-310): `[source][len|0x80][GET][vcp]` with the checksum
appended. -/
def getVCPFrame (vcp : Nat) : List Nat :=
  let data := [DDCCI_VCP_GET, vcp]
  let payload := [DDC_SOURCE_ADDR, data.length ||| 0x80] ++ data
  payload ++ [ddcciChecksum payload]

/-- The command frame written by `DDCBackend.setVCPFeature`
(ddc.go:381-394): `[source][len|0x80][SET][vcp][hi][lo]` with the checksum
appended; `byte(value >> 8)` and `byte(value & 0xFF)` are
`value / 256 % 256` and `value % 256` on naturals. -/
def setVCPFrame (vcp value : Nat) : List Nat :=
  let data := [DDCCI_VCP_SET, vcp, value / 256 % 256, value % 256]
  let payload := [DDC_SOURCE_ADDR, data.length ||| 0x80] ++ data
  payload ++ [ddcciChecksum payload]

/-- Error outcomes of `DDCBackend.getVCPFeature`'s response handling
(ddc.go:338-356). -/
inductive DDCError
  | readFailed
  | invalidResponse
  | notSupported
  | vcpMismatch
deriving DecidableEq, Repr

/-- The spec's §7 taxonomy files opcode, result-code and feature-code
mismatches and malformed responses under `ProtocolError`; a failed
`syscall.Read` is an I/O error, not a protocol error. -/
def DDCError.isProtocolError : DDCError → Bool
  | .readFailed => false
  | .invalidResponse => true
  | .notSupported => true
  | .vcpMismatch => true

/-- Result of a successful feature read (`ddcCapability`, types.go:100-104). -/
structure DDCCapability where
  vcp : Nat
  max : Nat
  current : Nat
deriving DecidableEq, Repr

/-- Response handling of `DDCBackend.getVCPFeature` after `syscall.Read`
(ddc.go:338-371).  `readErr` models `err != nil`; `received` is the list
of bytes the read placed into the 12-byte zero-initialised buffer, so
buffer index `i` holds `received.getD i 0` (indices at or beyond
`received.length` keep the zero initialisation). -/
def parseVCPResponse (vcp : Nat) (readErr : Bool) (received : List Nat) :
    Except DDCError DDCCapability :=
  if readErr = true ∨ received.length < 8 then .error .readFailed
  else if received.getD 0 0 ≠ 0x6E ∨ received.getD 2 0 ≠ 0x02 then .error .invalidResponse
  else if received.getD 3 0 ≠ 0x00 then .error .notSupported
  else if received.getD 4 0 ≠ vcp then .error .vcpMismatch
  else .ok ⟨vcp, 256 * received.getD 6 0 + received.getD 7 0,
    256 * received.getD 8 0 + received.getD 9 0⟩

instance {ε α : Type} [DecidableEq ε] [DecidableEq α] : DecidableEq (Except ε α) := fun a b =>
  match a, b with
  | .ok x, .ok y => decidable_of_iff (x = y) (by simp)
  | .ok _, .error _ => isFalse (by simp)
  | .error _, .ok _ => isFalse (by simp)
  | .error e, .error f => decidable_of_iff (e = f) (by simp)

example : getVCPFrame 0x10 = [0x51, 0x82, 0x01, 0x10, 0xAC] := by decide
example : setVCPFrame 0x10 300 = [0x51, 0x84, 0x03, 0x10, 0x01, 0x2C, 0x85] := by decide

/-! ### Claim C3: frame checksums and response checksum validation -/

/-- C3, counterexample.  The second half of the claim is false on the
code: the read-path validation (ddc.go:344-356) checks only the
reply-source byte, the feature-reply marker, the result code and the
echoed feature code — it never recomputes the checksum.  A valid reply
frame for max=100, current=50 carries checksum 0xF2 at offset 10; the
same frame with the low bit of that byte flipped (0xF3) is accepted with
the same parsed values instead of being rejected. -/
theorem c3_flipped_checksum_accepted_counterexample :
    parseVCPResponse 0x10 false
        [0x6E, 0x88, 0x02, 0x00, 0x10, 0x00, 0x00, 0x64, 0x00, 0x32, 0xF2, 0x00] =
      .ok ⟨0x10, 100, 50⟩ ∧
    parseVCPResponse 0x10 false
        [0x6E, 0x88, 0x02, 0x00, 0x10, 0x00, 0x00, 0x64, 0x00, 0x32, 0xF3, 0x00] =
      .ok ⟨0x10, 100, 50⟩ := by
  decide

/-- C3 (amended): every generated bus command frame — for both the
get-brightness and the set-brightness operation — has as its trailing
byte the XOR of the fixed destination-address seed 0x6E with every
preceding byte of the frame.  (The response-side validation used on read
does not examine the checksum byte at all, so a flipped checksum bit is
accepted, not rejected — see the counterexample.) -/
theorem c3_frame_trailing_checksum (vcp value : Nat) :
    (getVCPFrame vcp).getLast? =
      some ((getVCPFrame vcp).dropLast.foldl (fun sum b => sum ^^^ b) 0x6E) ∧
    (setVCPFrame vcp value).getLast? =
      some ((setVCPFrame vcp value).dropLast.foldl (fun sum b => sum ^^^ b) 0x6E) :=
  ⟨rfl, rfl⟩

/-! ### Claim C4: parsing a synthetic feature-read response -/

/-- C4: on a synthetic 12-byte response with reply-source marker 0x6E,
feature-reply marker 0x02, result code 0, echoed feature code 0x10, and
big-endian max=100, current=50 at offsets 6-9, the parser returns
max=100 and current=50; with any non-zero result-code byte it returns
the result-code-mismatch error, which the spec taxonomy classifies as a
ProtocolError. -/
theorem c4_parse_synthetic_response :
    parseVCPResponse 0x10 false
        [0x6E, 0x88, 0x02, 0x00, 0x10, 0x00, 0x00, 0x64, 0x00, 0x32, 0xF2, 0x00] =
      .ok ⟨0x10, 100, 50⟩ ∧
    ∀ rc : Nat, rc ≠ 0 →
      parseVCPResponse 0x10 false
          [0x6E, 0x88, 0x02, rc, 0x10, 0x00, 0x00, 0x64, 0x00, 0x32, 0xF2, 0x00] =
        .error .notSupported ∧ DDCError.notSupported.isProtocolError = true := by
  refine ⟨by decide, fun rc hrc => ⟨?_, rfl⟩⟩
  simp [parseVCPResponse, List.getD, hrc]

theorem c4_parse_synthetic_response_witness :
    (1 : Nat) ≠ 0 ∧
      (parseVCPResponse 0x10 false
          [0x6E, 0x88, 0x02, 1, 0x10, 0x00, 0x00, 0x64, 0x00, 0x32, 0xF2, 0x00] =
        .error .notSupported ∧ DDCError.notSupported.isProtocolError = true) :=
  ⟨by decide, c4_parse_synthetic_response.2 1 (by decide)⟩

/-! ### Claim C10: reads of 8 or 9 bytes are accepted, missing bytes read as 0 -/

/-- C10: the parser treats any read of at least 8 bytes as complete.  For
a read of exactly 8 or 9 bytes that passes the header, result-code and
feature-code checks it still returns a result, decoding the current value
from offsets 8 and 9 of the zero-initialised buffer, so bytes never
actually received contribute zero: with 8 bytes the current value is
exactly 0, with 9 bytes its low byte is 0. -/
theorem c10_short_read_accepted (vcp : Nat) (received : List Nat)
    (hlen : received.length = 8 ∨ received.length = 9)
    (h0 : received.getD 0 0 = 0x6E) (h2 : received.getD 2 0 = 0x02)
    (h3 : received.getD 3 0 = 0x00) (h4 : received.getD 4 0 = vcp) :
    parseVCPResponse vcp false received =
      .ok ⟨vcp, 256 * received.getD 6 0 + received.getD 7 0,
        256 * received.getD 8 0 + received.getD 9 0⟩ ∧
    (received.length = 8 → 256 * received.getD 8 0 + received.getD 9 0 = 0) ∧
    (received.length = 9 →
      256 * received.getD 8 0 + received.getD 9 0 = 256 * received.getD 8 0) := by
  refine ⟨?_, ?_, ?_⟩
  · unfold parseVCPResponse
    rw [if_neg (show ¬ ((false = true) ∨ received.length < 8) by
      rintro (h | h)
      · exact absurd h (by decide)
      · omega)]
    rw [if_neg (show ¬ (received.getD 0 0 ≠ 0x6E ∨ received.getD 2 0 ≠ 0x02) from
      fun hc => hc.elim (fun hne => hne h0) (fun hne => hne h2))]
    rw [if_neg (show ¬ received.getD 3 0 ≠ 0x00 from fun hne => hne h3)]
    rw [if_neg (show ¬ received.getD 4 0 ≠ vcp from fun hne => hne h4)]
  · intro h8
    rw [List.getD_eq_default _ _ (by omega), List.getD_eq_default _ _ (by omega)]
  · intro h9
    rw [List.getD_eq_default _ _ (by omega : received.length ≤ 9)]
    exact Nat.add_zero _

theorem c10_short_read_accepted_witness :
    (([0x6E, 0x88, 0x02, 0x00, 0x10, 0x00, 0x00, 0x64] : List Nat).length = 8 ∨
      ([0x6E, 0x88, 0x02, 0x00, 0x10, 0x00, 0x00, 0x64] : List Nat).length = 9) ∧
      (parseVCPResponse 0x10 false [0x6E, 0x88, 0x02, 0x00, 0x10, 0x00, 0x00, 0x64] =
          .ok ⟨0x10, 256 * 0 + 0x64, 256 * 0 + 0⟩ ∧
        (([0x6E, 0x88, 0x02, 0x00, 0x10, 0x00, 0x00, 0x64] : List Nat).length = 8 →
          256 * ([0x6E, 0x88, 0x02, 0x00, 0x10, 0x00, 0x00, 0x64] : List Nat).getD 8 0 +
            ([0x6E, 0x88, 0x02, 0x00, 0x10, 0x00, 0x00, 0x64] : List Nat).getD 9 0 = 0) ∧
        (([0x6E, 0x88, 0x02, 0x00, 0x10, 0x00, 0x00, 0x64] : List Nat).length = 9 →
          256 * ([0x6E, 0x88, 0x02, 0x00, 0x10, 0x00, 0x00, 0x64] : List Nat).getD 8 0 +
            ([0x6E, 0x88, 0x02, 0x00, 0x10, 0x00, 0x00, 0x64] : List Nat).getD 9 0 =
            256 * ([0x6E, 0x88, 0x02, 0x00, 0x10, 0x00, 0x00, 0x64] : List Nat).getD 8 0)) := by
  refine ⟨Or.inl (by decide), ?_⟩
  have h := c10_short_read_accepted 0x10 [0x6E, 0x88, 0x02, 0x00, 0x10, 0x00, 0x00, 0x64]
    (Or.inl (by decide)) (by decide) (by decide) (by decide) (by decide)
  exact ⟨by rw [h.1]; decide, h.2.1, h.2.2⟩

/-! ### Claim C5: bus discovery never probes an excluded bus -/

/-- The environment of one `scanI2CDevices` pass (ddc.go:42-81):
`busExists i` models `os.Stat("/dev/i2c-<i>")` succeeding, `probeOk i`
models `probeDDCDevice(i)` returning a device.

`isIgnorable` stands for `isIgnorableI2CBus`, whose body is not part of
the sources at hand (only its call site is); per the spec it marks buses
known to be GPU-internal management buses.  The scan is modelled
parametrically over it, which is all the claim depends on. -/
structure ScanEnv where
  busExists : Nat → Bool
  isIgnorable : Nat → Bool
  probeOk : Nat → Bool

/-- One iteration of the `scanI2CDevices` loop body (ddc.go:55-76) over
the accumulator (probed bus indices, discovered device indices): missing
bus nodes are skipped, ignorable buses are skipped before any bus
transaction, and only then is the device probed. -/
def scanStep (env : ScanEnv) (acc : List Nat × List Nat) (i : Nat) : List Nat × List Nat :=
  if !env.busExists i then acc
  else if env.isIgnorable i then acc
  else if env.probeOk i then (acc.1 ++ [i], acc.2 ++ [i])
  else (acc.1 ++ [i], acc.2)

/-- `DDCBackend.scanI2CDevices` (ddc.go:42-81): the loop
`for i := 0; i < 32; i++`.  First component: bus indices on which a bus
transaction (`probeDDCDevice`) was attempted; second: indices recorded as
devices. -/
def scanI2CDevices (env : ScanEnv) : List Nat × List Nat :=
  (List.range 32).foldl (scanStep env) ([], [])

theorem scanStep_mem (env : ScanEnv) (acc : List Nat × List Nat) (j i : Nat)
    (h : i ∈ (scanStep env acc j).1) :
    i ∈ acc.1 ∨ (i = j ∧ env.busExists i = true ∧ env.isIgnorable i = false) := by
  unfold scanStep at h
  split_ifs at h with h1 h2 h3
  · exact Or.inl h
  · exact Or.inl h
  · rcases List.mem_append.mp h with h | h
    · exact Or.inl h
    · have hij : i = j := by simpa using h
      subst hij
      refine Or.inr ⟨rfl, ?_, ?_⟩
      · revert h1; cases env.busExists i <;> simp
      · revert h2; cases env.isIgnorable i <;> simp
  · rcases List.mem_append.mp h with h | h
    · exact Or.inl h
    · have hij : i = j := by simpa using h
      subst hij
      refine Or.inr ⟨rfl, ?_, ?_⟩
      · revert h1; cases env.busExists i <;> simp
      · revert h2; cases env.isIgnorable i <;> simp

theorem scanFold_mem (env : ScanEnv) :
    ∀ (l : List Nat) (acc : List Nat × List Nat) (i : Nat),
      i ∈ (l.foldl (scanStep env) acc).1 →
      i ∈ acc.1 ∨ (i ∈ l ∧ env.busExists i = true ∧ env.isIgnorable i = false) := by
  intro l
  induction l with
  | nil => exact fun acc i h => Or.inl h
  | cons j t ih =>
    intro acc i h
    rw [List.foldl_cons] at h
    rcases ih (scanStep env acc j) i h with hacc | hrest
    · rcases scanStep_mem env acc j i hacc with h | ⟨hij, hb, hig⟩
      · exact Or.inl h
      · exact Or.inr ⟨hij ▸ List.mem_cons_self j t, hb, hig⟩
    · exact Or.inr ⟨List.mem_cons_of_mem _ hrest.1, hrest.2⟩

/-- C5: during bus discovery, every bus index on which a bus transaction
(opening the node and probing the controller) is attempted lies in the
bounded range 0..31, has an existing bus node, and is not matched by the
exclusion predicate — excluded buses are never probed. -/
theorem c5_excluded_bus_never_probed (env : ScanEnv) (i : Nat)
    (hi : i ∈ (scanI2CDevices env).1) :
    i < 32 ∧ env.busExists i = true ∧ env.isIgnorable i = false := by
  rcases scanFold_mem env (List.range 32) ([], []) i hi with h | ⟨hmem, hb, hig⟩
  · simp at h
  · exact ⟨List.mem_range.mp hmem, hb, hig⟩

/-- A concrete discovery environment for the C5 witness: bus nodes 3 and 5
exist, bus 5 is on the exclusion list, every probe succeeds. -/
def scanEnvExample : ScanEnv where
  busExists := fun i => decide (i = 3 ∨ i = 5)
  isIgnorable := fun i => decide (i = 5)
  probeOk := fun _ => true

theorem c5_excluded_bus_never_probed_witness :
    3 ∈ (scanI2CDevices scanEnvExample).1 ∧
      (3 < 32 ∧ scanEnvExample.busExists 3 = true ∧ scanEnvExample.isIgnorable 3 = false) :=
  ⟨by decide, c5_excluded_bus_never_probed scanEnvExample 3 (by decide)⟩

/-! ### Claim C2: debounced write coalescing

`Manager.SetBrightness` (manager.go:160-233): after validation and
backend resolution, the call records the latest percent in
`debouncePending[deviceID]` and stops/replaces the pending timer, all
under `debounceMutex`; the timer-expiry handler takes and deletes the
pending entry under the same mutex and, only if an entry was present,
issues exactly one physical backend write with it.  Each mutex-protected
critical section is one atomic step of the transition system below; a
debounce window for a device id is a run of `set` events followed by the
single `fire` of the last surviving timer. -/

/-- The debounce bookkeeping (`debouncePending`) plus the trace of
physical backend writes issued by expiry handlers, in order. -/
structure DebounceState where
  pending : String → Option Nat
  writes : List (String × Nat)

/-- Scheduling step of `Manager.SetBrightness` (manager.go:197-206):
`m.debouncePending[deviceID] = percent` (the timer is stopped and
replaced, leaving exactly one pending timer for the id). -/
def debSet (s : DebounceState) (id : String) (percent : Nat) : DebounceState :=
  { s with pending := fun j => if j = id then some percent else s.pending j }

/-- Timer-expiry handler (manager.go:206-230): atomically take and delete
the pending entry; if none is present (another expiry already consumed
it) return without writing, otherwise issue exactly one physical write
with the taken value. -/
def debFire (s : DebounceState) (id : String) : DebounceState :=
  match s.pending id with
  | some v =>
      { pending := fun j => if j = id then none else s.pending j,
        writes := s.writes ++ [(id, v)] }
  | none => s

inductive DebEvent
  | set (id : String) (percent : Nat)
  | fire (id : String)

def DebEvent.targetId : DebEvent → String
  | .set id _ => id
  | .fire id => id

def debStep (s : DebounceState) : DebEvent → DebounceState
  | .set id p => debSet s id p
  | .fire id => debFire s id

def debRun (s : DebounceState) (evs : List DebEvent) : DebounceState :=
  evs.foldl debStep s

theorem debWindow_once (id : String) :
    ∀ (ps : List Nat) (hne : ps ≠ []) (s : DebounceState),
      (debRun s (ps.map (DebEvent.set id) ++ [DebEvent.fire id])).writes
          = s.writes ++ [(id, ps.getLast hne)] ∧
        (debRun s (ps.map (DebEvent.set id) ++ [DebEvent.fire id])).pending id = none := by
  intro ps
  induction ps with
  | nil => exact fun hne => absurd rfl hne
  | cons p t ih =>
    intro hne s
    cases t with
    | nil =>
      constructor
      · show (debFire (debSet s id p) id).writes = s.writes ++ [(id, [p].getLast hne)]
        simp [debFire, debSet]
      · show (debFire (debSet s id p) id).pending id = none
        simp [debFire, debSet]
    | cons q t2 =>
      have hne2 : q :: t2 ≠ [] := by simp
      have hstep : debRun s (((p :: q :: t2).map (DebEvent.set id)) ++ [DebEvent.fire id])
          = debRun (debSet s id p) (((q :: t2).map (DebEvent.set id)) ++ [DebEvent.fire id]) := by
        simp [debRun, debStep]
      have hw := ih hne2 (debSet s id p)
      rw [hstep]
      refine ⟨?_, hw.2⟩
      rw [hw.1]
      have : (debSet s id p).writes = s.writes := rfl
      rw [this, List.getLast_cons hne2]

/-- C2: (i) any finite burst of `setBrightness` calls for one device id
inside one debounce window, followed by the single expiry of the last
surviving timer, appends exactly one physical write — carrying the
percent of the last call — and leaves no pending value; (ii) an expiry
that finds no pending value (already taken by another expiry) performs no
write and changes nothing, so a taken value is never written twice;
(iii) a step for a different device id neither disturbs this id's pending
value nor adds writes for it. -/
theorem c2_debounce_window_single_write :
    (∀ (s : DebounceState) (id : String) (ps : List Nat) (hne : ps ≠ []),
      (debRun s (ps.map (DebEvent.set id) ++ [DebEvent.fire id])).writes
          = s.writes ++ [(id, ps.getLast hne)] ∧
        (debRun s (ps.map (DebEvent.set id) ++ [DebEvent.fire id])).pending id = none) ∧
    (∀ (s : DebounceState) (id : String), s.pending id = none → debFire s id = s) ∧
    (∀ (s : DebounceState) (e : DebEvent) (id : String), e.targetId ≠ id →
      (debStep s e).pending id = s.pending id ∧
        (debStep s e).writes.filter (fun w => w.1 == id)
          = s.writes.filter (fun w => w.1 == id)) := by
  refine ⟨fun s id ps hne => debWindow_once id ps hne s, ?_, ?_⟩
  · intro s id h
    unfold debFire
    rw [h]
  · intro s e id hne
    cases e with
    | set j p =>
      have hji : j ≠ id := hne
      refine ⟨?_, rfl⟩
      show (debSet s j p).pending id = s.pending id
      simp only [debSet]
      rw [if_neg (fun h => hji h.symm)]
    | fire j =>
      have hji : j ≠ id := hne
      have hred : debStep s (DebEvent.fire j) = debFire s j := rfl
      rw [hred]
      unfold debFire
      cases hp : s.pending j with
      | none => exact ⟨rfl, rfl⟩
      | some v =>
        refine ⟨?_, ?_⟩
        · show (if id = j then none else s.pending id) = s.pending id
          rw [if_neg (fun h => hji h.symm)]
        · show List.filter (fun w => w.1 == id) (s.writes ++ [(j, v)])
              = List.filter (fun w => w.1 == id) s.writes
          rw [List.filter_append]
          simp [hji]

theorem c2_debounce_window_single_write_witness :
    ([10, 70, 30] : List Nat) ≠ [] ∧
      ((debRun ⟨fun _ => none, []⟩
            (([10, 70, 30].map (DebEvent.set "backlight:intel_backlight"))
              ++ [DebEvent.fire "backlight:intel_backlight"])).writes
          = [] ++ [("backlight:intel_backlight",
              ([10, 70, 30] : List Nat).getLast (by decide))] ∧
        (debRun ⟨fun _ => none, []⟩
            (([10, 70, 30].map (DebEvent.set "backlight:intel_backlight"))
              ++ [DebEvent.fire "backlight:intel_backlight"])).pending
            "backlight:intel_backlight" = none) :=
  ⟨by decide, c2_debounce_window_single_write.1 ⟨fun _ => none, []⟩
    "backlight:intel_backlight" [10, 70, 30] (by decide)⟩

/-! ### Claim C7: per-class raw-value floors of the Filesystem mapping -/

/-- C7: (i) with the Backlight minimum of 1 and any valid maximum, the
percent-to-raw mapping never returns 0 in either mode; (ii) a LED
(minimum 0) at percent 0 maps to raw 0 exactly; (iii) LED raw 0 maps
back to percent 0 exactly; (iv) in every other case the reverse
mapping's result is clamped to [1,100]. -/
theorem c7_class_minimum_floors :
    (∀ (p mx : Nat) (log : Bool), 1 ≤ mx → 1 ≤ percentToValue p 1 mx log) ∧
    (∀ (mx : Nat) (log : Bool), percentToValue 0 0 mx log = 0) ∧
    (∀ (mx : Nat) (log : Bool), valueToPercent 0 0 mx log = 0) ∧
    (∀ (v mn mx : Nat) (log : Bool), ¬(mn = 0 ∧ v = 0) →
      1 ≤ valueToPercent v mn mx log ∧ valueToPercent v mn mx log ≤ 100) := by
  refine ⟨?_, ?_, ?_, ?_⟩
  · intro p mx log hm
    simp only [percentToValue]
    generalize powHalfRound p (mx - 1) = a
    generalize (p - 1) * (mx - 1) / 99 = b
    split_ifs <;> omega
  · intro mx log
    rfl
  · intro mx log
    rfl
  · intro v mn mx log hne
    simp only [valueToPercent]
    generalize (v - mn) * 99 / (mx - mn) = b
    generalize sqOverHundredRound (1 + b) = a
    split_ifs <;> omega

theorem c7_class_minimum_floors_witness :
    ((1 : Nat) ≤ 255 ∧ 1 ≤ percentToValue 0 1 255 true) ∧
      (¬ ((1 : Nat) = 0 ∧ (40 : Nat) = 0) ∧
        (1 ≤ valueToPercent 40 1 255 true ∧ valueToPercent 40 1 255 true ≤ 100)) :=
  ⟨⟨by decide, c7_class_minimum_floors.1 0 255 true (by decide)⟩,
    ⟨by decide, c7_class_minimum_floors.2.2.2 40 1 255 true (by decide)⟩⟩

/-! ### Claim C6: logind failure falls back to the direct sysfs write -/

/-- Error outcomes of the filesystem write path (sysfs.go:144-175 and the
manager revision kept with the tests, lines 456-484). -/
inductive SetErr
  | invalidDeviceId
  | deviceNotFound
  | outOfRange
  | writeFailed
deriving DecidableEq, Repr

/-- Cached filesystem device metadata (`sysfsDevice`, types.go:76-82;
only the fields the write path reads). -/
structure SysfsDevice where
  minValue : Nat
  maxBrightness : Nat
deriving DecidableEq, Repr

/-- `SysfsBackend.SetBrightness` (sysfs.go:144-175): look up the cached
device, validate the percent (the `percent < 0` arm is unreachable over
ℕ), convert percent to a raw value and write it to the brightness
attribute file.  `idWellFormed` models the `strings.SplitN` id check,
`writeOk` the success of `os.WriteFile`, `file` the attribute file's
content.  Returns (error, file content after the call). -/
def sysfsSetBrightness (dev? : Option SysfsDevice) (idWellFormed : Bool)
    (percent : Nat) (log : Bool) (writeOk : Bool) (file : Option Nat) :
    Option SetErr × Option Nat :=
  match dev? with
  | none => (some .deviceNotFound, file)
  | some dev =>
    if 100 < percent then (some .outOfRange, file)
    else if !idWellFormed then (some .invalidDeviceId, file)
    else if writeOk then
      (none, some (percentToValue percent dev.minValue dev.maxBrightness log))
    else (some .writeFailed, file)

/-- `Manager.setViaSysfsWithLogind` (manager revision kept with the
tests, lines 456-484): validate the id, look up the device, and attempt
the Privileged-Write Proxy (logind) first; when the proxy is absent or
its call fails, fall back to the direct sysfs write.  `logindPresent`
models `m.logindBackend != nil`, `logindOk` the proxy call succeeding.
On proxy success the attribute file is not written directly.  The sysfs
fallback uses the linear mapping (the revision's two-argument
`SetBrightness`). -/
def setViaSysfsWithLogind (dev? : Option SysfsDevice) (idWellFormed : Bool)
    (percent : Nat) (logindPresent : Bool) (logindOk : Bool)
    (writeOk : Bool) (file : Option Nat) : Option SetErr × Option Nat :=
  if !idWellFormed then (some .invalidDeviceId, file)
  else match dev? with
  | none => (some .deviceNotFound, file)
  | some _ =>
    if !logindPresent then sysfsSetBrightness dev? idWellFormed percent false writeOk file
    else if logindOk then (none, file)
    else sysfsSetBrightness dev? idWellFormed percent false writeOk file

/-- C6: when the Privileged-Write Proxy call fails for a
filesystem-backed device, the overall outcome is exactly the direct
write's outcome — the proxy failure is never surfaced: if the direct
write succeeds the operation succeeds and the requested raw value is in
the attribute file; it fails (with the write error) only if the direct
write also fails. -/
theorem c6_logind_failure_falls_back (dev : SysfsDevice) (percent : Nat)
    (writeOk : Bool) (file : Option Nat) (hp : percent ≤ 100) :
    setViaSysfsWithLogind (some dev) true percent true false writeOk file
        = sysfsSetBrightness (some dev) true percent false writeOk file ∧
      (writeOk = true →
        setViaSysfsWithLogind (some dev) true percent true false writeOk file
          = (none, some (percentToValue percent dev.minValue dev.maxBrightness false))) ∧
      (writeOk = false →
        (setViaSysfsWithLogind (some dev) true percent true false writeOk file).1
          = some SetErr.writeFailed) := by
  have hdirect : sysfsSetBrightness (some dev) true percent false writeOk file
      = if writeOk then
          (none, some (percentToValue percent dev.minValue dev.maxBrightness false))
        else (some .writeFailed, file) := by
    simp only [sysfsSetBrightness]
    rw [if_neg (by omega : ¬ 100 < percent)]
    rfl
  have hfall : setViaSysfsWithLogind (some dev) true percent true false writeOk file
      = sysfsSetBrightness (some dev) true percent false writeOk file := rfl
  refine ⟨hfall, ?_, ?_⟩
  · intro hw
    rw [hfall, hdirect, if_pos hw]
  · intro hw
    rw [hfall, hdirect, if_neg (by rw [hw]; exact Bool.false_ne_true)]

theorem c6_logind_failure_falls_back_witness :
    (75 : Nat) ≤ 100 ∧
      (setViaSysfsWithLogind (some ⟨1, 100⟩) true 75 true false true (some 50)
          = sysfsSetBrightness (some ⟨1, 100⟩) true 75 false true (some 50) ∧
        (true = true →
          setViaSysfsWithLogind (some ⟨1, 100⟩) true 75 true false true (some 50)
            = (none, some (percentToValue 75 1 100 false))) ∧
        (true = false →
          (setViaSysfsWithLogind (some ⟨1, 100⟩) true 75 true false true (some 50)).1
            = some SetErr.writeFailed)) :=
  ⟨by decide, c6_logind_failure_falls_back ⟨1, 100⟩ 75 true (some 50) (by decide)⟩

/-! ### Unified device model (types.go:16-28) -/

/-- `Device` (types.go:16-24); `DeviceClass` is a string type in Go
(`"backlight"`, `"leds"`, `"ddc"`). -/
structure Device where
  cls : String
  id : String
  name : String
  current : Nat
  max : Nat
  currentPercent : Nat
  backend : String
deriving DecidableEq, Repr

/-- `State` (types.go:26-28): the aggregate state is a struct holding a
slice of devices. -/
structure State where
  devices : List Device
deriving DecidableEq, Repr

/-! ### Claim C8: GetState snapshots and shared backing storage

`Manager.GetState` (types.go:144-148) executes `return m.state`.  In Go,
assigning/returning a struct copies its fields; a `[]Device` field is a
slice header (pointer, length, capacity), so the copy shares the backing
array with `m.state`.  To state aliasing facts, the backing arrays live
in an explicit heap and a slice header is modelled as an index into it;
element assignment through one header is then visible through every copy
of that header, exactly as in Go. -/

/-- Heap of device backing arrays. -/
structure Heap where
  arrays : List (List Device)
deriving Repr

/-- Dereference a slice header (index into the heap). -/
def Heap.read (h : Heap) (ref : Nat) : List Device :=
  h.arrays.getD ref []

/-- A Go `State` value as stored or returned: the struct holds a slice
header. -/
structure StateHandle where
  devicesRef : Nat
deriving DecidableEq, Repr

/-- The coordinator's owned storage: the heap plus `m.state`. -/
structure ManagerMem where
  heap : Heap
  state : StateHandle
deriving Repr

/-- `Manager.GetState` (types.go:144-148): `return m.state` — a struct
copy, which copies the slice header. -/
def getState (m : ManagerMem) : StateHandle :=
  m.state

/-- Read the devices a snapshot denotes under the current heap. -/
def readState (m : ManagerMem) (snap : StateHandle) : List Device :=
  m.heap.read snap.devicesRef

/-- The first-match in-place update of the cached percent performed by
the test-revision `Manager.SetBrightness` (lines 381-397): scan for the
device id, break at the first hit, and assign
`m.state.Devices[deviceIndex].CurrentPercent = percent`. -/
def updateFirst (devs : List Device) (deviceID : String) (percent : Nat) : List Device :=
  match devs with
  | [] => []
  | d :: rest =>
    if d.id = deviceID then { d with currentPercent := percent } :: rest
    else d :: updateFirst rest deviceID percent

/-- The state-mutation step of the test-revision `Manager.SetBrightness`
(lines 366-398): element assignment through `m.state`'s slice header
mutates the backing array in place. -/
def setBrightnessCached (m : ManagerMem) (deviceID : String) (percent : Nat) : ManagerMem :=
  { m with heap := ⟨m.heap.arrays.set m.state.devicesRef
      (updateFirst (m.heap.read m.state.devicesRef) deviceID percent)⟩ }

/-- A one-device coordinator storage for the C8 counterexample. -/
def mem0 : ManagerMem :=
  ⟨⟨[[⟨"backlight", "backlight:intel_backlight", "intel_backlight", 40, 100, 40, "sysfs"⟩]]⟩, ⟨0⟩⟩

/-- C8, counterexample.  `getState` does not return a deep copy: a
snapshot returned before `setBrightness`'s in-place percent update reads
the updated value afterwards, because the struct copy shares the slice's
backing array with the coordinator's state. -/
theorem c8_getState_shallow_counterexample :
    readState (setBrightnessCached mem0 "backlight:intel_backlight" 75) (getState mem0)
        ≠ readState mem0 (getState mem0) ∧
      (readState (setBrightnessCached mem0 "backlight:intel_backlight" 75)
          (getState mem0)).map Device.currentPercent = [75] ∧
      (readState mem0 (getState mem0)).map Device.currentPercent = [40] := by
  decide

/-- C8 (amended): `getState` returns a shallow copy — the `State` struct
(and its slice header) is copied, but the backing array is shared, so the
in-place percent update performed by `setBrightness` is visible through
every snapshot handed out earlier: reading such a snapshot after the
update yields exactly the updated device list. -/
theorem c8_getState_shares_backing_array (m : ManagerMem) (id : String) (p : Nat) :
    readState (setBrightnessCached m id p) (getState m)
      = updateFirst (readState m (getState m)) id p := by
  unfold readState getState setBrightnessCached Heap.read
  by_cases href : m.state.devicesRef < m.heap.arrays.length
  · simp only [List.getD_eq_getElem?_getD]
    rw [List.getElem?_set_self (by simpa using href)]
    rfl
  · have hlen : m.heap.arrays.length ≤ m.state.devicesRef := by omega
    rw [List.set_eq_of_length_le hlen]
    rw [List.getD_eq_default _ _ hlen]
    rfl

theorem c8_getState_shares_backing_array_witness :
    readState (setBrightnessCached mem0 "backlight:intel_backlight" 60) (getState mem0)
      = updateFirst (readState mem0 (getState mem0)) "backlight:intel_backlight" 60 :=
  c8_getState_shares_backing_array mem0 "backlight:intel_backlight" 60

/-! ### Claim C9: rescan diffing and broadcast -/

/-- The `classOrder` map of `sortDevices` (manager.go:84-88); a Go map
lookup of a missing key yields the zero value 0. -/
def classOrder (c : String) : Nat :=
  if c = "backlight" then 0
  else if c = "ddc" then 1
  else if c = "leds" then 2
  else 0

/-- The comparison closure of `sortDevices` (manager.go:83-98). -/
def devLess (a b : Device) : Bool :=
  if classOrder a.cls ≠ classOrder b.cls then decide (classOrder a.cls < classOrder b.cls)
  else decide (a.name < b.name)

/-- Insertion step of the sort model. -/
def insertSorted (d : Device) : List Device → List Device
  | [] => [d]
  | e :: rest => if devLess d e then d :: e :: rest else e :: insertSorted d rest

/-- `sortDevices` (manager.go:82-99).  `sort.Slice` is an in-place
comparison sort whose algorithm (and order among comparison-equal
elements) Go leaves unspecified; it is modelled as an insertion sort over
the same comparison closure, which keeps the definition kernel-reducible. -/
def sortDevices (ds : List Device) : List Device :=
  ds.foldr insertSorted []

/-- Building and querying `oldMap` (manager.go:106-109): map insertion in
iteration order, a later duplicate id overwriting an earlier one. -/
def oldMapLookup (ds : List Device) (id : String) : Option Device :=
  ds.foldl (fun acc d => if d.id = id then some d else acc) none

/-- `stateChanged` (manager.go:101-122). -/
def stateChanged (old new : State) : Bool :=
  if old.devices.length ≠ new.devices.length then true
  else
    new.devices.any fun nd =>
      match oldMapLookup old.devices nd.id with
      | none => true
      | some od => od.current != nd.current || od.max != nd.max

/-- The merge step of `Manager.updateState` (manager.go:124-145): each
ready backend (readiness covers the nil check) contributes its device
list when its `GetDevices` succeeded (`none` models an error, whose
devices are skipped), and the union is sorted. -/
def backendContribution (ready : Bool) (res : Option (List Device)) : List Device :=
  if ready then (match res with | some ds => ds | none => []) else []

def mergedDevices (sysfsReady ddcReady : Bool) (sysfsRes ddcRes : Option (List Device)) :
    List Device :=
  sortDevices (backendContribution sysfsReady sysfsRes ++ backendContribution ddcReady ddcRes)

/-- `Manager.updateState` (manager.go:124-158): build the merged state,
compare with `stateChanged`; on change store the new state and notify
subscribers (second component `true`), otherwise keep the old state and
send nothing. -/
def updateState (sysfsReady ddcReady : Bool) (sysfsRes ddcRes : Option (List Device))
    (old : State) : State × Bool :=
  if stateChanged old ⟨mergedDevices sysfsReady ddcReady sysfsRes ddcRes⟩ then
    (⟨mergedDevices sysfsReady ddcReady sysfsRes ddcRes⟩, true)
  else (old, false)

/-- The comparison the claim describes, written from the spec's words:
"(id, current value) equality" between the previous snapshot and the
merged result. -/
def specChangedByIdCurrent (old new : State) : Bool :=
  !(old.devices.map (fun d => (d.id, d.current)) == new.devices.map (fun d => (d.id, d.current)))

def oldStateC9 : State :=
  ⟨[⟨"ddc", "ddc:i2c-3", "DDC-3", 30, 100, 30, "ddc"⟩]⟩

def newDevicesC9 : List Device :=
  [⟨"ddc", "ddc:i2c-3", "DDC-3", 30, 255, 30, "ddc"⟩]

/-- C9, counterexample.  `stateChanged` does not compare by
"(id, current value)" alone: it also compares the max raw value
(manager.go:116).  With an old and a merged state that agree on every
(id, current) pair but differ in one device's max, the spec comparison
reports no change while the code replaces the state and broadcasts — so
"if and only if that comparison reports a change" fails. -/
theorem c9_compare_by_id_current_counterexample :
    specChangedByIdCurrent oldStateC9 ⟨newDevicesC9⟩ = false ∧
      stateChanged oldStateC9 ⟨newDevicesC9⟩ = true ∧
      (updateState false true none (some newDevicesC9) oldStateC9).2 = true ∧
      (updateState false true none (some newDevicesC9) oldStateC9).1 = ⟨newDevicesC9⟩ := by
  decide

/-- C9 (amended): `updateState` merges the ready backends' results into a
new state and replaces the stored state and broadcasts exactly when
`stateChanged` reports a change, and otherwise keeps the old state with
no broadcast; `stateChanged` reports no change precisely when the merged
state has the same length as the previous snapshot and every merged
device finds its id in the previous snapshot with equal current AND max
raw values — i.e. the comparison key is (id, current, max), not
(id, current). -/
theorem c9_rescan_broadcast_iff_changed :
    (∀ (sysfsReady ddcReady : Bool) (sysfsRes ddcRes : Option (List Device)) (old : State),
      (updateState sysfsReady ddcReady sysfsRes ddcRes old).2
          = stateChanged old ⟨mergedDevices sysfsReady ddcReady sysfsRes ddcRes⟩ ∧
        (updateState sysfsReady ddcReady sysfsRes ddcRes old).1
          = if stateChanged old ⟨mergedDevices sysfsReady ddcReady sysfsRes ddcRes⟩
            then ⟨mergedDevices sysfsReady ddcReady sysfsRes ddcRes⟩ else old) ∧
    (∀ old new : State, stateChanged old new = false ↔
      (old.devices.length = new.devices.length ∧
        ∀ d ∈ new.devices, ∃ od, oldMapLookup old.devices d.id = some od ∧
          od.current = d.current ∧ od.max = d.max)) := by
  constructor
  · intro sr dr sres dres old
    by_cases h : stateChanged old ⟨mergedDevices sr dr sres dres⟩ = true
    · simp [updateState, h]
    · simp [updateState, h]
  · intro old nw
    unfold stateChanged
    by_cases hlen : old.devices.length ≠ nw.devices.length
    · rw [if_pos hlen]
      constructor
      · intro h
        exact absurd h (by simp)
      · rintro ⟨h1, _⟩
        exact absurd h1 hlen
    · rw [if_neg hlen]
      push_neg at hlen
      constructor
      · intro h
        refine ⟨hlen, ?_⟩
        intro d hd
        have hp : (match oldMapLookup old.devices d.id with
            | none => true
            | some od => od.current != d.current || od.max != d.max) = false := by
          cases hb : (match oldMapLookup old.devices d.id with
              | none => true
              | some od => od.current != d.current || od.max != d.max) with
          | false => rfl
          | true =>
            have hany : (nw.devices.any fun nd =>
                match oldMapLookup old.devices nd.id with
                | none => true
                | some od => od.current != nd.current || od.max != nd.max) = true :=
              List.any_eq_true.mpr ⟨d, hd, hb⟩
            rw [h] at hany
            exact absurd hany (by simp)
        cases hl : oldMapLookup old.devices d.id with
        | none =>
          rw [hl] at hp
          exact absurd hp (by simp)
        | some od =>
          rw [hl] at hp
          simp only [Bool.or_eq_false_iff, bne_eq_false_iff_eq] at hp
          exact ⟨od, rfl, hp.1, hp.2⟩
      · rintro ⟨_, hall⟩
        cases hany : nw.devices.any (fun nd =>
            match oldMapLookup old.devices nd.id with
            | none => true
            | some od => od.current != nd.current || od.max != nd.max) with
        | false => rfl
        | true =>
          obtain ⟨d, hd, hpred⟩ := List.any_eq_true.mp hany
          rcases hall d hd with ⟨od, hod, hc, hm⟩
          rw [hod] at hpred
          simp [hc, hm] at hpred

theorem c9_rescan_broadcast_iff_changed_witness :
    ((updateState true false (some newDevicesC9) none oldStateC9).2
        = stateChanged oldStateC9 ⟨mergedDevices true false (some newDevicesC9) none⟩ ∧
      (updateState true false (some newDevicesC9) none oldStateC9).1
        = if stateChanged oldStateC9 ⟨mergedDevices true false (some newDevicesC9) none⟩
          then ⟨mergedDevices true false (some newDevicesC9) none⟩ else oldStateC9) ∧
    (stateChanged oldStateC9 oldStateC9 = false ↔
      (oldStateC9.devices.length = oldStateC9.devices.length ∧
        ∀ d ∈ oldStateC9.devices, ∃ od, oldMapLookup oldStateC9.devices d.id = some od ∧
          od.current = d.current ∧ od.max = d.max)) :=
  ⟨c9_rescan_broadcast_iff_changed.1 true false (some newDevicesC9) none oldStateC9,
    c9_rescan_broadcast_iff_changed.2 oldStateC9 oldStateC9⟩

end Danklinux
